import Mathlib

/-!
Shallow embedding of the e-commerce backend service layer
(app/services/product_service.py and app/services/order_service.py),
together with proofs about inventory updates, availability checks,
order creation and pagination.

The MongoDB collections are modelled as in-memory lists of documents,
timestamps as a logical clock, and generated ObjectIds as a counter.
Prices (python floats) are modelled as rationals; quantities as integers.
-/

namespace ECom

/-- Models bson ObjectId.is_valid for string inputs: exactly 24
hexadecimal characters. -/
def isHexChar (c : Char) : Bool :=
  c.isDigit || (('a' ≤ c && c ≤ 'f') || ('A' ≤ c && c ≤ 'F'))

/-- Validity test applied by the services before building an ObjectId. -/
def isValidObjectId (s : String) : Bool :=
  s.length == 24 && s.toList.all isHexChar

/-- One size entry of a product document: a label and a stock quantity. -/
structure ProductSize where
  size : String
  quantity : Int
deriving DecidableEq

/-- A stored product document. -/
structure Product where
  id : String
  name : String
  price : Rat
  sizes : List ProductSize
  created_at : Nat
  updated_at : Nat
deriving DecidableEq

/-- One item of an order, as requested and as stored: product id and qty
(the stored order document keeps exactly these two fields). -/
structure OrderItem where
  productId : String
  qty : Int
deriving DecidableEq

/-- A stored order document. -/
structure Order where
  id : String
  userId : String
  items : List OrderItem
  total : Rat
  created_at : Nat
  updated_at : Nat
deriving DecidableEq

/-- The whole persistent state: the two collections, a logical clock for
timestamps, and a counter for generated identifiers. -/
structure Store where
  products : List Product
  orders : List Order
  clock : Nat
  nextId : Nat
deriving DecidableEq

/-- Generated identifier for a freshly inserted document. -/
def genId (n : Nat) : String :=
  "generated_" ++ Nat.repr n

/-- Payload of ProductCreate (already validated by the pydantic layer). -/
structure ProductCreate where
  name : String
  price : Rat
  sizes : List ProductSize
deriving DecidableEq

/-- Payload of OrderCreate (already validated by the pydantic layer). -/
structure OrderCreate where
  userId : String
  items : List OrderItem
deriving DecidableEq

/-- ProductService.create_product: inserts a new product document with
fresh timestamps and returns the generated id. -/
def create_product (st : Store) (pd : ProductCreate) : Store × String :=
  let pid := genId st.nextId
  let doc : Product :=
    { id := pid
      name := pd.name
      price := pd.price
      sizes := pd.sizes
      created_at := st.clock
      updated_at := st.clock }
  ({ st with
      products := st.products ++ [doc]
      clock := st.clock + 1
      nextId := st.nextId + 1 }, pid)

/-- ProductService.get_product_by_id: returns none on a malformed id,
otherwise a find_one on the products collection by id. -/
def get_product_by_id (st : Store) (pid : String) : Option Product :=
  if isValidObjectId pid then
    st.products.find? (fun p => decide (p.id = pid))
  else
    none

/-- The document filter of the update_one call in update_product_inventory:
the id matches, some size entry carries the requested label, and some
(possibly different) size entry has quantity at least qty. The python code
places the two array conditions side by side without elemMatch, so MongoDB
may satisfy them with two different entries of the sizes array. -/
def updateMatch (pid sz : String) (qty : Int) (p : Product) : Bool :=
  decide (p.id = pid)
    && p.sizes.any (fun e => decide (e.size = sz))
    && p.sizes.any (fun e => decide (qty ≤ e.quantity))

/-- Effect of the positional inc of the update_one call. For a filter of
the form (sizes.size eq, sizes.quantity gte) MongoDB resolves the
positional operator to the first array element matching the last array
condition of the filter, hence to the first entry whose quantity is at
least qty; that entry is decremented. -/
def decFirstGe (qty : Int) : List ProductSize → List ProductSize
  | [] => []
  | e :: rest =>
    if qty ≤ e.quantity then { e with quantity := e.quantity - qty } :: rest
    else e :: decFirstGe qty rest

/-- update_one against the products list: rewrites the first document
matching the filter, returns none when no document matches. -/
def applyUpd (pid sz : String) (qty : Int) (now : Nat) :
    List Product → Option (List Product)
  | [] => none
  | p :: rest =>
    if updateMatch pid sz qty p then
      some ({ p with sizes := decFirstGe qty p.sizes, updated_at := now } :: rest)
    else
      match applyUpd pid sz qty now rest with
      | none => none
      | some rest2 => some (p :: rest2)

/-- ProductService.update_product_inventory: false on a malformed id,
otherwise the conditional update_one described by updateMatch and
decFirstGe, refreshing updated_at; returns whether a document was
modified. -/
def update_product_inventory (st : Store) (pid sz : String) (qty : Int) :
    Store × Bool :=
  if isValidObjectId pid then
    match applyUpd pid sz qty st.clock st.products with
    | some ps => ({ st with products := ps, clock := st.clock + 1 }, true)
    | none => (st, false)
  else
    (st, false)

/-- Sum of the stock quantities over all size entries of a product. -/
def sumQuantities (sizes : List ProductSize) : Int :=
  sizes.foldl (fun acc e => acc + e.quantity) 0

/-- ProductService.check_product_availability: loads the product, sums the
quantities across all its size entries and compares the sum with the
requested quantity; the price is returned regardless of availability and
is 0 when the product is not found. -/
def check_product_availability (st : Store) (pid : String) (qty : Int) :
    Bool × Rat :=
  match get_product_by_id st pid with
  | none => (false, 0)
  | some p =>
    if qty ≤ sumQuantities p.sizes then (true, p.price)
    else (false, p.price)

/-- One item after the availability pass of create_order: the product id,
the requested qty and the unit price observed by the availability check. -/
structure ValidatedItem where
  productId : String
  qty : Int
  price : Rat
deriving DecidableEq

/-- The availability loop of OrderService.create_order: checks the items
one by one against the same store, collecting the observed prices, and
fails on the first unavailable item. -/
def checkItems (st : Store) : List OrderItem → Except String (List ValidatedItem)
  | [] => Except.ok []
  | it :: rest =>
    let res := check_product_availability st it.productId it.qty
    if res.1 then
      match checkItems st rest with
      | Except.error m => Except.error m
      | Except.ok v =>
        Except.ok ({ productId := it.productId, qty := it.qty, price := res.2 } :: v)
    else
      Except.error
        ("Product " ++ it.productId ++ " is not available or insufficient quantity")

/-- The order document built by create_order: items keep only productId
and qty, and the total is the running sum of price times qty over the
validated items. -/
def orderDoc (st : Store) (od : OrderCreate) (v : List ValidatedItem) : Order :=
  { id := genId st.nextId
    userId := od.userId
    items := v.map (fun t => { productId := t.productId, qty := t.qty })
    total := v.foldl (fun acc t => acc + t.price * (t.qty : Rat)) 0
    created_at := st.clock
    updated_at := st.clock }

/-- insert_one on the orders collection. -/
def persistOrder (st : Store) (o : Order) : Store :=
  { st with
      orders := st.orders ++ [o]
      clock := st.clock + 1
      nextId := st.nextId + 1 }

/-- One iteration of the inventory loop of create_order: reload the
product, pick the first size entry whose own quantity is at least the
requested qty, and call update_product_inventory on that size label; a
missing product or the absence of such an entry skips the decrement. -/
def reserveItem (st : Store) (pid : String) (qty : Int) : Store :=
  match get_product_by_id st pid with
  | none => st
  | some p =>
    match p.sizes.find? (fun e => decide (qty ≤ e.quantity)) with
    | none => st
    | some e => (update_product_inventory st pid e.size qty).1

/-- The inventory loop of create_order over all validated items. -/
def reservePhase (st : Store) : List ValidatedItem → Store
  | [] => st
  | t :: rest => reservePhase (reserveItem st t.productId t.qty) rest

/-- OrderService.create_order: availability pass, then insert of the order
document, then the inventory loop whose outcomes are ignored; an
unavailable item aborts before the insert and the failure is rethrown
wrapped by the outer handler. -/
def create_order (st : Store) (od : OrderCreate) : Store × Except String String :=
  match checkItems st od.items with
  | Except.error m => (st, Except.error ("Failed to create order: " ++ m))
  | Except.ok v =>
    let o := orderDoc st od v
    let st1 := persistOrder st o
    (reservePhase st1 v, Except.ok o.id)

/-- Sum over the requested items of the unit price observed by the
availability check times the requested qty. -/
def specTotal (st : Store) (items : List OrderItem) : Rat :=
  (items.map (fun it =>
    (check_product_availability st it.productId it.qty).2 * (it.qty : Rat))).sum

/-- The pagination block shared by get_products and get_user_orders. -/
structure PageInfo where
  next : Option Int
  limit : Int
  previous : Int
deriving DecidableEq

/-- Pagination computation of both services: next is offset plus limit
when that is still below the total count; previous is max 0 (offset minus
limit) when offset is positive, and the python fallback substitutes minus
limit when the previous offset is None. -/
def paginationMeta (totalCount limit offset : Int) : PageInfo :=
  let nextOffset : Option Int :=
    if offset + limit < totalCount then some (offset + limit) else none
  let previousOffset : Option Int :=
    if 0 < offset then some (max 0 (offset - limit)) else none
  { next := nextOffset
    limit := limit
    previous :=
      match previousOffset with
      | some v => v
      | none => -limit }

/-- ASCII lowercasing used to model the case-insensitive regex options. -/
def lowerStr (s : String) : String :=
  String.mk (s.toList.map Char.toLower)

/-- Whether the pattern occurs at the head of the haystack. -/
def matchesAt : List Char → List Char → Bool
  | [], _ => true
  | _ :: _, [] => false
  | c :: cs, d :: ds => c == d && matchesAt cs ds

/-- Whether the pattern occurs anywhere inside the haystack. -/
def occursIn (pat : List Char) : List Char → Bool
  | [] => pat.isEmpty
  | d :: ds => matchesAt pat (d :: ds) || occursIn pat ds

/-- Case-insensitive substring test modelling the escaped regex filter on
the product name. -/
def containsCI (hay pat : String) : Bool :=
  occursIn (lowerStr pat).toList (lowerStr hay).toList

/-- The find filter of ProductService.get_products: an empty or absent
name or size parameter is falsy in python and disables its clause; a name
filters by case-insensitive substring; a size by an elemMatch requiring a
case-insensitive exact label match with positive stock. -/
def productMatches (nameF sizeF : Option String) (p : Product) : Bool :=
  (match nameF with
   | none => true
   | some n => n.isEmpty || containsCI p.name n)
  &&
  (match sizeF with
   | none => true
   | some s => s.isEmpty ||
       p.sizes.any (fun e =>
         lowerStr e.size == lowerStr s && decide (0 < e.quantity)))

/-- Row of the product listing response. -/
structure ProductRow where
  id : String
  name : String
  price : Rat
deriving DecidableEq

/-- ProductService.get_products: counts the documents matching the filter,
fetches the window given by skip and limit, and builds the pagination
block from the same count. -/
def get_products (st : Store) (nameF sizeF : Option String)
    (limit offset : Int) : List ProductRow × PageInfo :=
  let matched := st.products.filter (productMatches nameF sizeF)
  let totalCount : Int := matched.length
  let window := (matched.drop offset.toNat).take limit.toNat
  (window.map (fun p => { id := p.id, name := p.name, price := p.price }),
   paginationMeta totalCount limit offset)

/-- Hydrated order item of the order listing response. -/
structure HydratedItem where
  productName : String
  productId : String
  qty : Int
deriving DecidableEq

/-- Row of the order listing response. -/
structure OrderRow where
  id : String
  items : List HydratedItem
  total : Rat
deriving DecidableEq

/-- Insertion step of the sort on created_at descending. -/
def insertByCreatedDesc (o : Order) : List Order → List Order
  | [] => [o]
  | x :: xs =>
    if x.created_at ≤ o.created_at then o :: x :: xs
    else x :: insertByCreatedDesc o xs

/-- Sort on created_at descending, newest first. -/
def sortByCreatedDesc : List Order → List Order
  | [] => []
  | x :: xs => insertByCreatedDesc x (sortByCreatedDesc xs)

/-- Hydration of one stored order item with the product name, substituting
the sentinel name when the product is gone. -/
def hydrateItem (st : Store) (it : OrderItem) : HydratedItem :=
  match get_product_by_id st it.productId with
  | some p => { productName := p.name, productId := it.productId, qty := it.qty }
  | none =>
    { productName := "Product Not Found", productId := it.productId, qty := it.qty }

/-- OrderService.get_user_orders: filters the orders of this user, counts
them, sorts newest first, windows by skip and limit, hydrates the items
and builds the same pagination block as the product listing. -/
def get_user_orders (st : Store) (uid : String) (limit offset : Int) :
    List OrderRow × PageInfo :=
  let matched := st.orders.filter (fun o => decide (o.userId = uid))
  let totalCount : Int := matched.length
  let window := ((sortByCreatedDesc matched).drop offset.toNat).take limit.toNat
  (window.map (fun o =>
    { id := o.id, items := o.items.map (hydrateItem st), total := o.total }),
   paginationMeta totalCount limit offset)

/-- The state-changing service operations. -/
inductive Op where
  | createProduct (pd : ProductCreate)
  | createOrder (od : OrderCreate)
  | decrementSize (pid sz : String) (qty : Int)
deriving DecidableEq

/-- Application of one operation to the store. -/
def applyOp (st : Store) : Op → Store
  | Op.createProduct pd => (create_product st pd).1
  | Op.createOrder od => (create_order st od).1
  | Op.decrementSize pid sz qty => (update_product_inventory st pid sz qty).1

/-- Application of a sequence of operations to the store. -/
def applyOps (st : Store) : List Op → Store
  | [] => st
  | op :: rest => applyOps (applyOp st op) rest

/-- The validation the pydantic layer guarantees for operation inputs, as
far as the inventory invariant needs it: every size of a created product
carries a non-negative quantity. -/
def opValid : Op → Bool
  | Op.createProduct pd => pd.sizes.all (fun e => decide (0 ≤ e.quantity))
  | _ => true

/-- Invariant: every size entry of every stored product has a non-negative
quantity. -/
def SizesNonneg (st : Store) : Prop :=
  ∀ p ∈ st.products, ∀ e ∈ p.sizes, 0 ≤ e.quantity

/-- A well-formed 24-character hexadecimal identifier. -/
def pidA : String := "aaaaaaaaaaaaaaaaaaaaaaaa"

/-- A second well-formed identifier. -/
def pidB : String := "bbbbbbbbbbbbbbbbbbbbbbbb"

/-- A third well-formed identifier. -/
def pidC : String := "cccccccccccccccccccccccc"

/-- Product whose named size entry M is empty while a different entry L
still has stock; exercises the update_one filter across entries. -/
def mismatchProduct : Product :=
  ⟨pidA, "Shirt", 20, [⟨"M", 0⟩, ⟨"L", 5⟩], 0, 0⟩

/-- Store holding only mismatchProduct. -/
def mismatchStore : Store := ⟨[mismatchProduct], [], 1, 0⟩

/-- Product whose stock is fragmented across two size entries: the sum is
4 but no single entry reaches 3. -/
def fragProduct : Product :=
  ⟨pidB, "Cap", 7, [⟨"S", 2⟩, ⟨"M", 2⟩], 0, 0⟩

/-- Store holding only fragProduct. -/
def fragStore : Store := ⟨[fragProduct], [], 1, 0⟩

/-- The product of the spec scenario: one size M with quantity 2. -/
def shirtProduct : Product :=
  ⟨pidC, "Shirt", 20, [⟨"M", 2⟩], 0, 0⟩

/-- Store holding only shirtProduct. -/
def shirtStore : Store := ⟨[shirtProduct], [], 1, 0⟩

instance (st : Store) : Decidable (SizesNonneg st) := by
  unfold SizesNonneg
  infer_instance

/-- The inventory update never touches the orders collection. -/
theorem update_product_inventory_orders (st : Store) (pid sz : String) (qty : Int) :
    (update_product_inventory st pid sz qty).1.orders = st.orders := by
  unfold update_product_inventory
  split
  · split <;> rfl
  · rfl

/-- One reservation step never touches the orders collection. -/
theorem reserveItem_orders (st : Store) (pid : String) (qty : Int) :
    (reserveItem st pid qty).orders = st.orders := by
  unfold reserveItem
  split
  · rfl
  · split
    · rfl
    · apply update_product_inventory_orders

/-- The whole reservation phase never touches the orders collection. -/
theorem reservePhase_orders (v : List ValidatedItem) :
    ∀ st : Store, (reservePhase st v).orders = st.orders := by
  induction v with
  | nil => intro st; rfl
  | cons t rest ih =>
    intro st
    rw [reservePhase, ih, reserveItem_orders]

/-- The positional decrement keeps all quantities non-negative: the entry
it modifies is one whose quantity is at least the subtracted qty. -/
theorem decFirstGe_nonneg (qty : Int) :
    ∀ l : List ProductSize, (∀ e ∈ l, 0 ≤ e.quantity) →
      ∀ e ∈ decFirstGe qty l, 0 ≤ e.quantity := by
  intro l
  induction l with
  | nil =>
    intro _ e he
    simp [decFirstGe] at he
  | cons a rest ih =>
    intro h e he
    rw [decFirstGe] at he
    split at he
    next hq =>
      rcases List.mem_cons.mp he with rfl | hmem
      · have ha := h a (List.mem_cons_self a rest)
        simp only []
        omega
      · exact h e (List.mem_cons_of_mem a hmem)
    next hq =>
      rcases List.mem_cons.mp he with rfl | hmem
      · exact h _ (List.mem_cons_self _ _)
      · exact ih (fun x hx => h x (List.mem_cons_of_mem _ hx)) e hmem

/-- A successful update_one rewrite keeps every product of the collection
with non-negative quantities. -/
theorem applyUpd_nonneg (pid sz : String) (qty : Int) (now : Nat) :
    ∀ (l ps : List Product), applyUpd pid sz qty now l = some ps →
      (∀ p ∈ l, ∀ e ∈ p.sizes, 0 ≤ e.quantity) →
      ∀ p ∈ ps, ∀ e ∈ p.sizes, 0 ≤ e.quantity := by
  intro l
  induction l with
  | nil =>
    intro ps hps
    simp [applyUpd] at hps
  | cons a rest ih =>
    intro ps hps h
    rw [applyUpd] at hps
    split at hps
    · rcases Option.some.inj hps with rfl
      intro p hp e he
      rcases List.mem_cons.mp hp with rfl | hmem
      · exact decFirstGe_nonneg qty a.sizes
          (h a (List.mem_cons_self a rest)) e he
      · exact h p (List.mem_cons_of_mem a hmem) e he
    · split at hps
      · exact absurd hps (by simp)
      next rest2 hrec =>
        rcases Option.some.inj hps with rfl
        intro p hp e he
        rcases List.mem_cons.mp hp with rfl | hmem
        · exact h _ (List.mem_cons_self _ _) e he
        · exact ih rest2 hrec
            (fun x hx => h x (List.mem_cons_of_mem a hx)) p hmem e he

/-- update_product_inventory preserves the non-negativity invariant. -/
theorem update_product_inventory_nonneg (st : Store) (pid sz : String)
    (qty : Int) (h : SizesNonneg st) :
    SizesNonneg (update_product_inventory st pid sz qty).1 := by
  unfold update_product_inventory
  split
  · cases hrec : applyUpd pid sz qty st.clock st.products with
    | none => simpa [hrec] using h
    | some ps =>
      simp only [hrec]
      intro p hp e he
      exact applyUpd_nonneg pid sz qty st.clock st.products ps hrec h p hp e he
  · exact h

/-- One reservation step preserves the non-negativity invariant. -/
theorem reserveItem_nonneg (st : Store) (pid : String) (qty : Int)
    (h : SizesNonneg st) : SizesNonneg (reserveItem st pid qty) := by
  unfold reserveItem
  split
  · exact h
  · split
    · exact h
    · exact update_product_inventory_nonneg st pid _ qty h

/-- The whole reservation phase preserves the non-negativity invariant. -/
theorem reservePhase_nonneg (v : List ValidatedItem) :
    ∀ st : Store, SizesNonneg st → SizesNonneg (reservePhase st v) := by
  induction v with
  | nil => intro st h; exact h
  | cons t rest ih =>
    intro st h
    rw [reservePhase]
    exact ih _ (reserveItem_nonneg st t.productId t.qty h)

/-- create_order preserves the non-negativity invariant. -/
theorem create_order_nonneg (st : Store) (od : OrderCreate)
    (h : SizesNonneg st) : SizesNonneg (create_order st od).1 := by
  unfold create_order
  split
  · exact h
  · apply reservePhase_nonneg
    intro p hp e he
    exact h p hp e he

/-- create_product preserves the non-negativity invariant when the created
sizes all carry non-negative quantities, as the pydantic layer enforces. -/
theorem create_product_nonneg (st : Store) (pd : ProductCreate)
    (h : SizesNonneg st) (hpd : ∀ e ∈ pd.sizes, 0 ≤ e.quantity) :
    SizesNonneg (create_product st pd).1 := by
  intro p hp e he
  rcases List.mem_append.mp hp with hmem | hmem
  · exact h p hmem e he
  · rcases List.mem_singleton.mp hmem with rfl
    exact hpd e he

/-- Every validated operation preserves the non-negativity invariant. -/
theorem applyOp_nonneg (st : Store) (op : Op) (h : SizesNonneg st)
    (hop : opValid op = true) : SizesNonneg (applyOp st op) := by
  cases op with
  | createProduct pd =>
    have hall : ∀ e ∈ pd.sizes, 0 ≤ e.quantity := by simpa [opValid] using hop
    exact create_product_nonneg st pd h hall
  | createOrder od => exact create_order_nonneg st od h
  | decrementSize pid sz qty => exact update_product_inventory_nonneg st pid sz qty h

/-- If some requested item fails the availability check against the
current store, the availability pass fails: the checks are pure reads of
one unchanging store, so the loop meets the failing item and raises. -/
theorem checkItems_error_of_unavailable (st : Store) :
    ∀ items : List OrderItem,
      (∃ it ∈ items, (check_product_availability st it.productId it.qty).1 = false) →
      ∃ m, checkItems st items = Except.error m := by
  intro items
  induction items with
  | nil =>
    rintro ⟨it, hmem, _⟩
    cases hmem
  | cons a rest ih =>
    rintro ⟨it, hmem, hfail⟩
    cases ha : (check_product_availability st a.productId a.qty).1 with
    | false =>
      exact ⟨"Product " ++ a.productId ++ " is not available or insufficient quantity",
        by simp [checkItems, ha]⟩
    | true =>
      rcases List.mem_cons.mp hmem with rfl | hmem2
      · rw [ha] at hfail
        cases hfail
      · obtain ⟨m, hm⟩ := ih ⟨it, hmem2, hfail⟩
        exact ⟨m, by simp [checkItems, ha, hm]⟩

/-- A successful availability pass records exactly the prices the checks
observed: folding the running total over the validated items computes the
sum of observed price times qty over the requested items. -/
theorem checkItems_foldl_total (st : Store) :
    ∀ (items : List OrderItem) (v : List ValidatedItem),
      checkItems st items = Except.ok v →
      ∀ a : Rat,
        v.foldl (fun acc t => acc + t.price * (t.qty : Rat)) a
          = a + specTotal st items := by
  intro items
  induction items with
  | nil =>
    intro v hv a
    simp [checkItems] at hv
    subst hv
    simp [specTotal]
  | cons it rest ih =>
    intro v hv a
    rw [checkItems] at hv
    cases ha : (check_product_availability st it.productId it.qty).1 with
    | false => simp [ha] at hv
    | true =>
      simp only [ha, if_true] at hv
      cases hrest : checkItems st rest with
      | error m => rw [hrest] at hv; cases hv
      | ok v2 =>
        rw [hrest] at hv
        rcases Except.ok.inj hv with rfl
        rw [List.foldl_cons, ih v2 hrest]
        simp only [specTotal, List.map_cons, List.sum_cons]
        ring

/-- Any operation keeps every already persisted order document intact:
orders are only ever appended, never rewritten. -/
theorem mem_orders_applyOp (o : Order) (st : Store) (op : Op)
    (h : o ∈ st.orders) : o ∈ (applyOp st op).orders := by
  cases op with
  | createProduct pd => exact h
  | createOrder od =>
    show o ∈ (create_order st od).1.orders
    unfold create_order
    split
    · exact h
    · rw [reservePhase_orders]
      exact List.mem_append_left _ h
  | decrementSize pid sz qty =>
    show o ∈ (update_product_inventory st pid sz qty).1.orders
    rw [update_product_inventory_orders]
    exact h

/-- Any sequence of operations keeps every already persisted order. -/
theorem mem_orders_applyOps (o : Order) (ops : List Op) :
    ∀ st : Store, o ∈ st.orders → o ∈ (applyOps st ops).orders := by
  induction ops with
  | nil => intro st h; exact h
  | cons op rest ih =>
    intro st h
    exact ih (applyOp st op) (mem_orders_applyOp o st op h)

/-- Elimination for a successful product lookup: the id is well formed,
the find locates the document, and its id field is the argument id. -/
theorem get_product_by_id_some_elim (st : Store) (pid : String) (p : Product)
    (h : get_product_by_id st pid = some p) :
    isValidObjectId pid = true ∧
      st.products.find? (fun q => decide (q.id = pid)) = some p ∧ p.id = pid := by
  unfold get_product_by_id at h
  cases hv : isValidObjectId pid with
  | false => rw [hv] at h; cases h
  | true =>
    rw [hv] at h
    simp only [if_true] at h
    refine ⟨rfl, h, ?_⟩
    have := List.find?_some h
    simpa using this

/-- The document filter of the inventory update holds for a product whose
id matches when the named size label is the one of the first entry with
enough stock. -/
theorem updateMatch_of_find (p : Product) (e : ProductSize) (pid : String)
    (qty : Int) (hid : p.id = pid)
    (he : p.sizes.find? (fun x => decide (qty ≤ x.quantity)) = some e) :
    updateMatch pid e.size qty p = true := by
  have hmem := List.mem_of_find?_eq_some he
  have hq : qty ≤ e.quantity := by simpa using List.find?_some he
  have h1 : decide (p.id = pid) = true := by simp [hid]
  have h2 : p.sizes.any (fun x => decide (x.size = e.size)) = true := by
    simp only [List.any_eq_true, decide_eq_true_eq]
    exact ⟨e, hmem, rfl⟩
  have h3 : p.sizes.any (fun x => decide (qty ≤ x.quantity)) = true := by
    simp only [List.any_eq_true, decide_eq_true_eq]
    exact ⟨e, hmem, hq⟩
  simp [updateMatch, h1, h2, h3]

/-- If the find locates the document and the document satisfies the update
filter, the update_one call matches some document. -/
theorem applyUpd_succeeds (pid sz : String) (qty : Int) (now : Nat) :
    ∀ (l : List Product) (p : Product),
      l.find? (fun q => decide (q.id = pid)) = some p →
      updateMatch pid sz qty p = true →
      ∃ ps, applyUpd pid sz qty now l = some ps := by
  intro l
  induction l with
  | nil =>
    intro p hp _
    simp at hp
  | cons a rest ih =>
    intro p hp hm
    cases hid : decide (a.id = pid) with
    | true =>
      simp only [List.find?, hid] at hp
      have : a = p := Option.some.inj hp
      subst this
      refine ⟨{ a with sizes := decFirstGe qty a.sizes, updated_at := now } :: rest, ?_⟩
      simp [applyUpd, hm]
    | false =>
      simp only [List.find?, hid] at hp
      have hma : updateMatch pid sz qty a = false := by
        simp only [updateMatch, hid, Bool.false_and]
      obtain ⟨ps, hps⟩ := ih p hp hm
      exact ⟨a :: ps, by simp [applyUpd, hma, hps]⟩

/-- C1: the claim that update_product_inventory succeeds only if the
matching size entry has quantity at least qty and on success subtracts qty
from that entry fails on the code: the update filter places the label
condition and the quantity condition side by side without elemMatch, so
for a product with sizes M:0 and L:5 a decrement of 2 against M matches
the document, returns true and subtracts 2 from the L entry, although the
claim requires a false no-op because the M entry holds only 0 < 2. -/
theorem update_inventory_filter_spans_entries :
    (update_product_inventory mismatchStore pidA "M" 2).2 = true ∧
      (update_product_inventory mismatchStore pidA "M" 2).1.products
        = [⟨pidA, "Shirt", 20, [⟨"M", 0⟩, ⟨"L", 3⟩], 0, 1⟩] := by
  decide

/-- C2: non-negativity of every size quantity is an invariant: from a
store satisfying it, any sequence of service operations (with product
creation payloads validated as the pydantic layer guarantees) preserves
it; in particular no sequence of successful inventory decrements drives
any quantity below zero. -/
theorem sizes_nonneg_invariant (st : Store) (ops : List Op)
    (h0 : SizesNonneg st) (hops : ∀ op ∈ ops, opValid op = true) :
    SizesNonneg (applyOps st ops) := by
  induction ops generalizing st with
  | nil => exact h0
  | cons op rest ih =>
    exact ih (applyOp st op)
      (applyOp_nonneg st op h0 (hops op (List.mem_cons_self _ _)))
      (fun x hx => hops x (List.mem_cons_of_mem _ hx))

/-- Concrete run of the invariant preservation across a decrement, an
order, a product creation and an oversized decrement attempt. -/
theorem sizes_nonneg_invariant_witness :
    SizesNonneg mismatchStore ∧
      SizesNonneg (applyOps mismatchStore
        [Op.decrementSize pidA "M" 2,
         Op.createOrder ⟨"u1", [⟨pidA, 1⟩]⟩,
         Op.createProduct ⟨"Hat", 5, [⟨"S", 3⟩]⟩,
         Op.decrementSize pidA "L" 99]) :=
  ⟨by decide,
   sizes_nonneg_invariant mismatchStore
     [Op.decrementSize pidA "M" 2,
      Op.createOrder ⟨"u1", [⟨pidA, 1⟩]⟩,
      Op.createProduct ⟨"Hat", 5, [⟨"S", 3⟩]⟩,
      Op.decrementSize pidA "L" 99] (by decide) (by decide)⟩

/-- C3: when some requested item fails the availability check, the order
creation aborts with the insufficient-stock error and no order document is
persisted. -/
theorem create_order_aborts_on_unavailable (st : Store) (od : OrderCreate)
    (h : ∃ it ∈ od.items,
      (check_product_availability st it.productId it.qty).1 = false) :
    (create_order st od).1.orders = st.orders ∧
      ∃ m, (create_order st od).2 = Except.error m := by
  obtain ⟨m, hm⟩ := checkItems_error_of_unavailable st od.items h
  refine ⟨?_, ⟨"Failed to create order: " ++ m, ?_⟩⟩
  · simp [create_order, hm]
  · simp [create_order, hm]

/-- Concrete abort: the shirt store holds 2 units in total and an order
asks for 3, so nothing is persisted and the call fails. -/
theorem create_order_aborts_on_unavailable_witness :
    (∃ it ∈ [(⟨pidC, 3⟩ : OrderItem)],
      (check_product_availability shirtStore it.productId it.qty).1 = false) ∧
      ((create_order shirtStore ⟨"u1", [⟨pidC, 3⟩]⟩).1.orders = shirtStore.orders ∧
        ∃ m, (create_order shirtStore ⟨"u1", [⟨pidC, 3⟩]⟩).2 = Except.error m) :=
  ⟨by decide,
   create_order_aborts_on_unavailable shirtStore ⟨"u1", [⟨pidC, 3⟩]⟩ (by decide)⟩

/-- C4: when all items pass the availability check, the total stored on
the created order is the sum over the requested items of the unit price
observed by the check times the requested qty, and the order document with
that total survives any later sequence of operations unchanged. -/
theorem order_total_is_snapshot (st : Store) (od : OrderCreate)
    (v : List ValidatedItem) (h : checkItems st od.items = Except.ok v) :
    (orderDoc st od v).total = specTotal st od.items ∧
      orderDoc st od v ∈ (create_order st od).1.orders ∧
      ∀ ops : List Op,
        orderDoc st od v ∈ (applyOps (create_order st od).1 ops).orders := by
  have htot : (orderDoc st od v).total = specTotal st od.items := by
    show v.foldl (fun acc t => acc + t.price * (t.qty : Rat)) 0 = specTotal st od.items
    rw [checkItems_foldl_total st od.items v h 0, zero_add]
  have hmem : orderDoc st od v ∈ (create_order st od).1.orders := by
    simp only [create_order, h]
    rw [reservePhase_orders]
    exact List.mem_append_right _ (List.mem_singleton.mpr rfl)
  exact ⟨htot, hmem, fun ops => mem_orders_applyOps _ ops _ hmem⟩

/-- Concrete snapshot: the spec scenario order of 2 shirts at price 20;
the persisted document keeps the observed total across later operations. -/
theorem order_total_is_snapshot_witness :
    checkItems shirtStore [⟨pidC, 2⟩] = Except.ok [⟨pidC, 2, 20⟩] ∧
      (orderDoc shirtStore ⟨"u1", [⟨pidC, 2⟩]⟩ [⟨pidC, 2, 20⟩]).total
        = specTotal shirtStore [⟨pidC, 2⟩] ∧
      orderDoc shirtStore ⟨"u1", [⟨pidC, 2⟩]⟩ [⟨pidC, 2, 20⟩]
        ∈ (applyOps (create_order shirtStore ⟨"u1", [⟨pidC, 2⟩]⟩).1
            [Op.createProduct ⟨"Hat", 5, [⟨"S", 3⟩]⟩]).orders :=
  ⟨rfl,
   (order_total_is_snapshot shirtStore ⟨"u1", [⟨pidC, 2⟩]⟩ [⟨pidC, 2, 20⟩] rfl).1,
   (order_total_is_snapshot shirtStore ⟨"u1", [⟨pidC, 2⟩]⟩ [⟨pidC, 2, 20⟩] rfl).2.2
     [Op.createProduct ⟨"Hat", 5, [⟨"S", 3⟩]⟩]⟩

/-- C5: after a successful availability pass the order document is
persisted first and the reservation phase runs on the already persisted
store; whatever the reservations do, the call returns ok with the new
order id and the orders collection still holds exactly the appended
order document. -/
theorem create_order_persists_before_reserving (st : Store) (od : OrderCreate)
    (v : List ValidatedItem) (h : checkItems st od.items = Except.ok v) :
    create_order st od
        = (reservePhase (persistOrder st (orderDoc st od v)) v,
           Except.ok (orderDoc st od v).id) ∧
      (create_order st od).1.orders = st.orders ++ [orderDoc st od v] := by
  constructor
  · simp [create_order, h]
  · simp only [create_order, h]
    rw [reservePhase_orders]
    rfl

/-- Concrete run with fragmented stock: availability passes against the
sum 4 but no single size holds 3, so the reservation silently does
nothing, yet the order is persisted and the call returns ok. -/
theorem create_order_persists_before_reserving_witness :
    checkItems fragStore [⟨pidB, 3⟩] = Except.ok [⟨pidB, 3, 7⟩] ∧
      (create_order fragStore ⟨"u1", [⟨pidB, 3⟩]⟩
          = (reservePhase (persistOrder fragStore
                (orderDoc fragStore ⟨"u1", [⟨pidB, 3⟩]⟩ [⟨pidB, 3, 7⟩]))
              [⟨pidB, 3, 7⟩],
             Except.ok (orderDoc fragStore ⟨"u1", [⟨pidB, 3⟩]⟩ [⟨pidB, 3, 7⟩]).id) ∧
        (create_order fragStore ⟨"u1", [⟨pidB, 3⟩]⟩).1.orders
          = fragStore.orders ++ [orderDoc fragStore ⟨"u1", [⟨pidB, 3⟩]⟩ [⟨pidB, 3, 7⟩]]) :=
  ⟨rfl,
   create_order_persists_before_reserving fragStore ⟨"u1", [⟨pidB, 3⟩]⟩
     [⟨pidB, 3, 7⟩] rfl⟩

/-- C6: the reservation step for one item decrements via
update_product_inventory on the label of the first size entry in stored
order whose own quantity reaches the requested qty, and that call then
matches a document; when no single entry reaches the qty the store is left
untouched and no decrement is attempted, although availability was
computed against the sum of all entries. -/
theorem reserve_selects_first_fitting_size (st : Store) (pid : String)
    (qty : Int) (p : Product) (hp : get_product_by_id st pid = some p) :
    (p.sizes.find? (fun e => decide (qty ≤ e.quantity)) = none →
        reserveItem st pid qty = st) ∧
      ∀ e, p.sizes.find? (fun x => decide (qty ≤ x.quantity)) = some e →
        reserveItem st pid qty = (update_product_inventory st pid e.size qty).1 ∧
          (update_product_inventory st pid e.size qty).2 = true := by
  obtain ⟨hv, hfind, hid⟩ := get_product_by_id_some_elim st pid p hp
  constructor
  · intro hnone
    simp [reserveItem, hp, hnone]
  · intro e he
    refine ⟨by simp [reserveItem, hp, he], ?_⟩
    obtain ⟨ps, hps⟩ := applyUpd_succeeds pid e.size qty st.clock st.products p hfind
      (updateMatch_of_find p e pid qty hid he)
    simp [update_product_inventory, hv, hps]

/-- Concrete reservation selection: with stock fragmented as S:2, M:2, a
request of 3 attempts no decrement although the sum is 4, and a request of
2 decrements through the first entry S. -/
theorem reserve_selects_first_fitting_size_witness :
    get_product_by_id fragStore pidB = some fragProduct ∧
      fragProduct.sizes.find? (fun e => decide ((3 : Int) ≤ e.quantity)) = none ∧
      (check_product_availability fragStore pidB 3).1 = true ∧
      reserveItem fragStore pidB 3 = fragStore ∧
      fragProduct.sizes.find? (fun x => decide ((2 : Int) ≤ x.quantity))
        = some ⟨"S", 2⟩ ∧
      (reserveItem fragStore pidB 2
          = (update_product_inventory fragStore pidB "S" 2).1 ∧
        (update_product_inventory fragStore pidB "S" 2).2 = true) :=
  ⟨by decide, by decide, by decide,
   (reserve_selects_first_fitting_size fragStore pidB 3 fragProduct (by decide)).1
     (by decide),
   by decide,
   (reserve_selects_first_fitting_size fragStore pidB 2 fragProduct (by decide)).2
     ⟨"S", 2⟩ (by decide)⟩

/-- C7: the availability check reports availability exactly when the sum
of the quantities over all size entries reaches the requested qty, returns
the stored price regardless of availability, and returns false with price
0 on a malformed id or a missing product. -/
theorem check_availability_sums_all_sizes (st : Store) (pid : String) (qty : Int) :
    (isValidObjectId pid = false →
        check_product_availability st pid qty = (false, 0)) ∧
      (get_product_by_id st pid = none →
        check_product_availability st pid qty = (false, 0)) ∧
      ∀ p, get_product_by_id st pid = some p →
        check_product_availability st pid qty
          = (decide (qty ≤ sumQuantities p.sizes), p.price) := by
  refine ⟨?_, ?_, ?_⟩
  · intro hv
    simp [check_product_availability, get_product_by_id, hv]
  · intro h
    simp [check_product_availability, h]
  · intro p hp
    by_cases hle : qty ≤ sumQuantities p.sizes
    · simp [check_product_availability, hp, hle]
    · simp [check_product_availability, hp, hle]

/-- Concrete availability: the M:0, L:5 product is available for 5 at its
price, and a malformed id yields false with price 0. -/
theorem check_availability_sums_all_sizes_witness :
    get_product_by_id mismatchStore pidA = some mismatchProduct ∧
      check_product_availability mismatchStore pidA 5
        = (decide ((5 : Int) ≤ sumQuantities mismatchProduct.sizes),
           mismatchProduct.price) ∧
      isValidObjectId "not-an-objectid" = false ∧
      check_product_availability mismatchStore "not-an-objectid" 5 = (false, 0) :=
  ⟨by decide,
   (check_availability_sums_all_sizes mismatchStore pidA 5).2.2 mismatchProduct
     (by decide),
   by decide,
   (check_availability_sums_all_sizes mismatchStore "not-an-objectid" 5).1
     (by decide)⟩

/-- C8: both listings build their pagination block by one rule: next is
offset plus limit exactly when that is below the total count and absent
otherwise; previous is max 0 (offset minus limit) for positive offset and
the sentinel minus limit at offset 0. -/
theorem pagination_metadata_spec (st : Store) (nameF sizeF : Option String)
    (uid : String) (totalCount limit offset : Int) :
    (get_products st nameF sizeF limit offset).2
        = paginationMeta ((st.products.filter (productMatches nameF sizeF)).length)
            limit offset ∧
      (get_user_orders st uid limit offset).2
        = paginationMeta
            ((st.orders.filter (fun o => decide (o.userId = uid))).length)
            limit offset ∧
      (offset + limit < totalCount →
        (paginationMeta totalCount limit offset).next = some (offset + limit)) ∧
      (totalCount ≤ offset + limit →
        (paginationMeta totalCount limit offset).next = none) ∧
      (0 < offset →
        (paginationMeta totalCount limit offset).previous = max 0 (offset - limit)) ∧
      (offset = 0 →
        (paginationMeta totalCount limit offset).previous = -limit) := by
  refine ⟨rfl, rfl, ?_, ?_, ?_, ?_⟩
  · intro h
    simp [paginationMeta, h]
  · intro h
    simp [paginationMeta, not_lt.mpr h]
  · intro h
    simp [paginationMeta, h]
  · intro h
    subst h
    simp [paginationMeta]

/-- Concrete pagination: totalCount 25 with limit 10 gives no next at
offset 20, next 20 at offset 10, and the sentinel previous -10 at
offset 0. -/
theorem pagination_metadata_spec_witness :
    (25 : Int) ≤ 20 + 10 ∧ (paginationMeta 25 10 20).next = none ∧
      (10 : Int) + 10 < 25 ∧ (paginationMeta 25 10 10).next = some 20 ∧
      (paginationMeta 25 10 0).previous = -10 :=
  ⟨by decide,
   (pagination_metadata_spec fragStore none none "u" 25 10 20).2.2.2.1 (by decide),
   by decide,
   (pagination_metadata_spec fragStore none none "u" 25 10 10).2.2.1 (by decide),
   (pagination_metadata_spec fragStore none none "u" 25 10 0).2.2.2.2.2 rfl⟩

/-- C9: a malformed identifier makes get_product_by_id return the soft
not-found result none instead of failing. -/
theorem get_product_by_id_malformed_soft (st : Store) (pid : String)
    (h : isValidObjectId pid = false) : get_product_by_id st pid = none := by
  simp [get_product_by_id, h]

/-- Concrete soft failure on a malformed identifier. -/
theorem get_product_by_id_malformed_soft_witness :
    isValidObjectId "invalid" = false ∧
      get_product_by_id mismatchStore "invalid" = none :=
  ⟨by decide, get_product_by_id_malformed_soft mismatchStore "invalid" (by decide)⟩

/-- C10: when some requested item fails the availability check, the whole
store is unchanged: no order is persisted and no inventory is touched,
because every availability check runs before the first write. -/
theorem create_order_unavailable_leaves_store (st : Store) (od : OrderCreate)
    (h : ∃ it ∈ od.items,
      (check_product_availability st it.productId it.qty).1 = false) :
    (create_order st od).1 = st := by
  obtain ⟨m, hm⟩ := checkItems_error_of_unavailable st od.items h
  simp [create_order, hm]

/-- Concrete unchanged store: the fragmented store has 4 units in total
and an order asks for 5, so the store is returned verbatim. -/
theorem create_order_unavailable_leaves_store_witness :
    (∃ it ∈ [(⟨pidB, 5⟩ : OrderItem)],
      (check_product_availability fragStore it.productId it.qty).1 = false) ∧
      (create_order fragStore ⟨"u2", [⟨pidB, 5⟩]⟩).1 = fragStore :=
  ⟨by decide,
   create_order_unavailable_leaves_store fragStore ⟨"u2", [⟨pidB, 5⟩]⟩ (by decide)⟩

end ECom
